import Mathlib

/-!
Verification of the `StepIndicator` component
(`src/components/step-indicator.tsx`).

The component is a pure rendering function: given a list of step labels
and an integer `currentStep`, it produces a visual tree consisting of a
root container, a horizontal baseline line, and an ordered list of
markers (one `<li>` per step).  We embed the rendered tree as a Lean
data structure and the render function as a total Lean function that
mirrors the TSX source line by line.
-/

namespace Registro

/-- The glyph shown inside a marker circle: either the `CheckIcon`
(with its class string) or the one-based step number. -/
inductive Glyph where
  | check (cls : String)
  | number (n : Nat)
deriving DecidableEq, Repr

/-- The rendered `<li>` node for one step: its own class, the marker
circle's class, the glyph inside the circle, and the label `<span>`
(text and class) rendered beneath the marker. -/
structure LiNode where
  liClass : String
  markerClass : String
  glyph : Glyph
  labelText : String
  labelClass : String
deriving DecidableEq, Repr

/-- The full rendered tree of `StepIndicator`: the root `<div>` class,
the baseline `<div>` class, the `<ol>` class, and the list of `<li>`
items in order. -/
structure StepIndicatorOutput where
  rootClass : String
  baselineClass : String
  olClass : String
  items : List LiNode
deriving DecidableEq, Repr

/-- The class string shared by every marker circle (source line 20). -/
def markerBaseClass : String :=
  "flex h-8 w-8 items-center justify-center rounded-full border-2 "

/-- Variant class for a completed marker (source line 22). -/
def completedMarkerClass : String :=
  "border-primary bg-primary text-primary-foreground"

/-- Variant class for the current marker (source line 24). -/
def currentMarkerClass : String :=
  "border-primary bg-background text-primary"

/-- Variant class for a pending marker (source line 25). -/
def pendingMarkerClass : String :=
  "border-muted bg-background"

/-- Class of the baseline `<div>` (source line 11). -/
def baselineDivClass : String :=
  "absolute left-0 top-1/2 h-0.5 w-full -translate-y-1/2 bg-muted"

/-- Class of the label `<span>` beneath each marker (source line 34). -/
def labelSpanClass : String :=
  "mt-2 hidden text-xs sm:block"

/-- Render one step: the body of the `steps.map((step, index) => ...)`
callback.  `index` is a natural number (a JS array index); `currentStep`
is an arbitrary integer, so the comparisons are performed in `Int`,
matching JS number comparison on these values. -/
def renderStep (currentStep : Int) (index : Nat) (step : String) : LiNode :=
  let isCompleted : Bool := decide ((index : Int) < currentStep)
  let isCurrent : Bool := decide ((index : Int) = currentStep)
  { liClass := "flex flex-col items-center"
    markerClass := markerBaseClass ++
      (if isCompleted then completedMarkerClass
       else if isCurrent then currentMarkerClass
       else pendingMarkerClass)
    glyph := if isCompleted then Glyph.check "h-4 w-4"
             else Glyph.number (index + 1)
    labelText := step
    labelClass := labelSpanClass }

/-- The `StepIndicator` component itself: renders the root container,
the baseline, and one `<li>` per entry of `steps`, in order. -/
def StepIndicator (steps : List String) (currentStep : Int) :
    StepIndicatorOutput :=
  { rootClass := "relative"
    baselineClass := baselineDivClass
    olClass := "relative z-10 flex w-full justify-between"
    items := steps.enum.map (fun p => renderStep currentStep p.1 p.2) }

/-- The three-way per-step classification the spec describes, derived
from the two booleans the source computes (lines 14-15) and the order
in which the source tests them (completed first, then current,
otherwise pending). -/
inductive StepState where
  | Completed
  | Current
  | Pending
deriving DecidableEq, Repr

/-- Classify index `index` against `currentStep`, exactly as the
rendering branch of the source does. -/
def stepState (index : Nat) (currentStep : Int) : StepState :=
  if (index : Int) < currentStep then StepState.Completed
  else if (index : Int) = currentStep then StepState.Current
  else StepState.Pending

/-- The list of classifications for a render: one state per step, in
order. -/
def stepStates (steps : List String) (currentStep : Int) : List StepState :=
  steps.enum.map (fun p => stepState p.1 currentStep)

theorem stepState_completed_iff (i : Nat) (c : Int) :
    stepState i c = StepState.Completed ↔ (i : Int) < c := by
  unfold stepState
  split_ifs with h1 h2 <;> simp_all

theorem stepState_current_iff (i : Nat) (c : Int) :
    stepState i c = StepState.Current ↔ (i : Int) = c := by
  unfold stepState
  split_ifs with h1 h2 <;> simp_all <;> omega

theorem stepState_pending_iff (i : Nat) (c : Int) :
    stepState i c = StepState.Pending ↔ c < (i : Int) := by
  unfold stepState
  split_ifs with h1 h2 <;> simp_all <;> omega

theorem stepStates_eq_range (steps : List String) (c : Int) :
    stepStates steps c =
      (List.range steps.length).map (fun i => stepState i c) := by
  unfold stepStates
  rw [show (fun p : Nat × String => stepState p.1 c) =
        (fun i => stepState i c) ∘ Prod.fst from rfl,
      ← List.map_map, List.enum_map_fst]

theorem count_singleton_state (a b : StepState) :
    [b].count a = if b = a then 1 else 0 := by
  cases a <;> cases b <;> decide

theorem completedCount_range (c : Int) (N : Nat) :
    ((((List.range N).map (fun i => stepState i c)).count
        StepState.Completed : Nat) : Int) = max 0 (min c (N : Int)) := by
  induction N with
  | zero => simp
  | succ n ih =>
    rw [List.range_succ, List.map_append, List.count_append]
    simp only [List.map_cons, List.map_nil, count_singleton_state]
    by_cases h : (n : Int) < c
    · rw [if_pos ((stepState_completed_iff n c).2 h)]
      rw [Int.max_def, Int.min_def] at ih ⊢
      push_cast at ih ⊢
      split_ifs at ih ⊢ <;> omega
    · rw [if_neg (fun hc => h ((stepState_completed_iff n c).1 hc))]
      rw [Int.max_def, Int.min_def] at ih ⊢
      push_cast at ih ⊢
      split_ifs at ih ⊢ <;> omega

theorem currentCount_range (c : Int) (N : Nat) :
    ((List.range N).map (fun i => stepState i c)).count StepState.Current =
      if 0 ≤ c ∧ c < (N : Int) then 1 else 0 := by
  induction N with
  | zero => simp [show ¬(0 ≤ c ∧ c < (0 : Int)) from by omega]
  | succ n ih =>
    rw [List.range_succ, List.map_append, List.count_append]
    simp only [List.map_cons, List.map_nil, count_singleton_state]
    by_cases h : (n : Int) = c
    · rw [if_pos ((stepState_current_iff n c).2 h)]
      rw [ih, if_neg (by omega), if_pos (by constructor <;> omega)]
    · rw [if_neg (fun hc => h ((stepState_current_iff n c).1 hc))]
      rw [ih]
      by_cases h0 : 0 ≤ c ∧ c < (n : Int)
      · rw [if_pos h0, if_pos ⟨h0.1, by omega⟩]
      · rw [if_neg h0, if_neg (by push_neg at h0 ⊢; intro hc; omega)]

theorem countSum_range (c : Int) (N : Nat) :
    ((List.range N).map (fun i => stepState i c)).count StepState.Completed +
      ((List.range N).map (fun i => stepState i c)).count StepState.Current +
      ((List.range N).map (fun i => stepState i c)).count StepState.Pending =
      N := by
  induction N with
  | zero => simp
  | succ n ih =>
    rw [List.range_succ, List.map_append]
    simp only [List.count_append, List.map_cons, List.map_nil,
      List.count_cons, List.count_nil]
    cases hs : stepState n c <;> simp_all <;> omega

/-- Claim C2: for every steps list of length `N` and every integer
`currentStep = c`, exactly `max 0 (min c N)` indices are classified
Completed, at most one index is classified Current, and every
remaining index is classified Pending. -/
theorem stepStates_counts (steps : List String) (c : Int) :
    (((stepStates steps c).count StepState.Completed : Int) =
        max 0 (min c (steps.length : Int))) ∧
    (stepStates steps c).count StepState.Current ≤ 1 ∧
    (stepStates steps c).count StepState.Pending =
      steps.length - (stepStates steps c).count StepState.Completed -
        (stepStates steps c).count StepState.Current := by
  rw [stepStates_eq_range]
  refine ⟨completedCount_range c steps.length, ?_, ?_⟩
  · rw [currentCount_range]
    split_ifs <;> omega
  · have := countSum_range c steps.length
    omega

/-- Claim C3: when `currentStep` is out of range the classification
saturates: for every steps list, if `currentStep < 0` every index is
Pending, and if `currentStep ≥ steps.length` every index is Completed;
in particular `[A, B, C]` with `currentStep = -1` yields three Pending
markers and with `currentStep = 3` three Completed markers. -/
theorem stepStates_saturation (steps : List String) (c : Int) :
    (c < 0 →
      stepStates steps c = List.replicate steps.length StepState.Pending) ∧
    ((steps.length : Int) ≤ c →
      stepStates steps c = List.replicate steps.length StepState.Completed) ∧
    stepStates ["A", "B", "C"] (-1) =
      [StepState.Pending, StepState.Pending, StepState.Pending] ∧
    stepStates ["A", "B", "C"] 3 =
      [StepState.Completed, StepState.Completed, StepState.Completed] := by
  refine ⟨fun hneg => ?_, fun hbig => ?_, by decide, by decide⟩
  · rw [stepStates_eq_range]
    apply List.eq_replicate_iff.2
    refine ⟨by simp, ?_⟩
    intro b hb
    simp only [List.mem_map, List.mem_range] at hb
    obtain ⟨i, _, hi⟩ := hb
    rw [← hi]
    exact (stepState_pending_iff i c).2 (by omega)
  · rw [stepStates_eq_range]
    apply List.eq_replicate_iff.2
    refine ⟨by simp, ?_⟩
    intro b hb
    simp only [List.mem_map, List.mem_range] at hb
    obtain ⟨i, hiN, hi⟩ := hb
    rw [← hi]
    exact (stepState_completed_iff i c).2 (by omega)

/-- Witness for C3 at concrete inputs. -/
theorem stepStates_saturation_witness :
    stepStates ["A"] (-2) = List.replicate 1 StepState.Pending ∧
    stepStates ["A", "B"] 5 = List.replicate 2 StepState.Completed :=
  ⟨(stepStates_saturation ["A"] (-2)).1 (by decide),
   (stepStates_saturation ["A", "B"] 5).2.1 (by decide)⟩

/-- Claim C1: for every integer `currentStep` and every index `i`, the
classification is `Completed` iff `i < currentStep`, `Current` iff
`i = currentStep`, and `Pending` iff `i > currentStep`; and rendering
`steps = [A, B, C]` with `currentStep = 1` classifies index 0 as
Completed, index 1 as Current, and index 2 as Pending. -/
theorem stepState_classification (c : Int) (i : Nat) :
    ((stepState i c = StepState.Completed ↔ (i : Int) < c) ∧
     (stepState i c = StepState.Current ↔ (i : Int) = c) ∧
     (stepState i c = StepState.Pending ↔ (i : Int) > c)) ∧
    stepStates ["A", "B", "C"] 1 =
      [StepState.Completed, StepState.Current, StepState.Pending] := by
  refine ⟨⟨stepState_completed_iff i c, stepState_current_iff i c,
    stepState_pending_iff i c⟩, ?_⟩
  decide

theorem stepIndicator_items_length (steps : List String) (c : Int) :
    (StepIndicator steps c).items.length = steps.length := by
  simp [StepIndicator]

theorem stepIndicator_items_get (steps : List String) (c : Int) (i : Nat)
    (h : i < (StepIndicator steps c).items.length) (hs : i < steps.length) :
    (StepIndicator steps c).items.get ⟨i, h⟩ =
      renderStep c i (steps.get ⟨i, hs⟩) := by
  simp [StepIndicator, List.get_eq_getElem, List.getElem_map,
    List.getElem_enum]

theorem stepIndicator_labels (steps : List String) (c : Int) :
    (StepIndicator steps c).items.map LiNode.labelText = steps := by
  unfold StepIndicator
  simp only [List.map_map]
  have hcomp :
      (LiNode.labelText ∘ fun p : Nat × String => renderStep c p.1 p.2) =
        Prod.snd := by
    funext p
    rfl
  rw [hcomp, List.enum_map_snd]

/-- Claim C4: rendering is total and never raises an error: for every
steps list (including the empty one) and every integer `currentStep`
(including out-of-range values), rendering succeeds, producing an
output tree with one item per step. -/
theorem render_total (steps : List String) (c : Int) :
    ∃ out : StepIndicatorOutput,
      StepIndicator steps c = out ∧ out.items.length = steps.length :=
  ⟨StepIndicator steps c, rfl, stepIndicator_items_length steps c⟩

/-- Claim C5: the output contains exactly `steps.length` markers, one
per entry of `steps` and in the same order (the item labels, read in
order, are exactly `steps`); rendering with `steps = []` produces zero
markers regardless of `currentStep`. -/
theorem markers_one_per_step (steps : List String) (c : Int) :
    (StepIndicator steps c).items.length = steps.length ∧
    (StepIndicator steps c).items.map LiNode.labelText = steps ∧
    (StepIndicator [] c).items = [] :=
  ⟨stepIndicator_items_length steps c, stepIndicator_labels steps c, rfl⟩

/-- Claim C6: a Completed marker shows the checkmark glyph and a
Current or Pending marker shows the one-based number `i + 1`;
Completed and Current markers use the primary border styling while
Pending markers use the muted border styling. -/
theorem marker_visuals (c : Int) (i : Nat) (s : String) :
    ((renderStep c i s).glyph =
      match stepState i c with
      | StepState.Completed => Glyph.check "h-4 w-4"
      | StepState.Current => Glyph.number (i + 1)
      | StepState.Pending => Glyph.number (i + 1)) ∧
    ((renderStep c i s).markerClass =
      markerBaseClass ++
        match stepState i c with
        | StepState.Completed => completedMarkerClass
        | StepState.Current => currentMarkerClass
        | StepState.Pending => pendingMarkerClass) ∧
    List.isPrefixOf "border-primary".data completedMarkerClass.data = true ∧
    List.isPrefixOf "border-primary".data currentMarkerClass.data = true ∧
    List.isPrefixOf "border-muted".data pendingMarkerClass.data = true := by
  refine ⟨?_, ?_, by decide, by decide, by decide⟩ <;>
  · unfold renderStep stepState
    by_cases h1 : (i : Int) < c
    · simp [h1]
    · by_cases h2 : (i : Int) = c <;> simp [h1, h2]

/-- Claim C7: rendering is deterministic and referentially
transparent: the output is a pure function of the two inputs, so two
invocations with identical inputs produce identical output trees. -/
theorem render_deterministic (s1 s2 : List String) (c1 c2 : Int)
    (hs : s1 = s2) (hc : c1 = c2) :
    StepIndicator s1 c1 = StepIndicator s2 c2 := by
  rw [hs, hc]

/-- Witness for C7 at a concrete input. -/
theorem render_deterministic_witness :
    StepIndicator ["A", "B"] 1 = StepIndicator ["A", "B"] 1 :=
  render_deterministic ["A", "B"] ["A", "B"] 1 1 rfl rfl

/-- Claim C8: classification and marker visuals are independent of the
label strings: for equal-length steps lists and the same
`currentStep`, the marker at each index has identical class, glyph,
item class and label class between the two renders; only the label
text can differ. -/
theorem marker_label_independence (c : Int) (s1 s2 : List String)
    (hlen : s1.length = s2.length) (i : Nat)
    (h1 : i < (StepIndicator s1 c).items.length)
    (h2 : i < (StepIndicator s2 c).items.length) :
    ((StepIndicator s1 c).items.get ⟨i, h1⟩).markerClass =
      ((StepIndicator s2 c).items.get ⟨i, h2⟩).markerClass ∧
    ((StepIndicator s1 c).items.get ⟨i, h1⟩).glyph =
      ((StepIndicator s2 c).items.get ⟨i, h2⟩).glyph ∧
    ((StepIndicator s1 c).items.get ⟨i, h1⟩).liClass =
      ((StepIndicator s2 c).items.get ⟨i, h2⟩).liClass ∧
    ((StepIndicator s1 c).items.get ⟨i, h1⟩).labelClass =
      ((StepIndicator s2 c).items.get ⟨i, h2⟩).labelClass := by
  have hs1 : i < s1.length := by
    simpa [stepIndicator_items_length] using h1
  have hs2 : i < s2.length := by
    simpa [stepIndicator_items_length] using h2
  rw [stepIndicator_items_get s1 c i h1 hs1,
    stepIndicator_items_get s2 c i h2 hs2]
  exact ⟨rfl, rfl, rfl, rfl⟩

/-- Witness for C8 at a concrete input: two different single-label
lists render identical marker visuals. -/
theorem marker_label_independence_witness :
    ((StepIndicator ["A"] 0).items.get ⟨0, by decide⟩).markerClass =
      ((StepIndicator ["B"] 0).items.get ⟨0, by decide⟩).markerClass ∧
    ((StepIndicator ["A"] 0).items.get ⟨0, by decide⟩).glyph =
      ((StepIndicator ["B"] 0).items.get ⟨0, by decide⟩).glyph ∧
    ((StepIndicator ["A"] 0).items.get ⟨0, by decide⟩).liClass =
      ((StepIndicator ["B"] 0).items.get ⟨0, by decide⟩).liClass ∧
    ((StepIndicator ["A"] 0).items.get ⟨0, by decide⟩).labelClass =
      ((StepIndicator ["B"] 0).items.get ⟨0, by decide⟩).labelClass :=
  marker_label_independence 0 ["A"] ["B"] rfl 0 (by decide) (by decide)

/-- Claim C9: the full-width horizontal baseline is rendered
unconditionally: for every input, including `steps = []`, the output
tree carries the baseline line, so the empty-steps render is not an
empty tree (its baseline and root container are still present even
though its marker list is empty). -/
theorem baseline_unconditional (steps : List String) (c : Int) :
    (StepIndicator steps c).baselineClass = baselineDivClass ∧
    (StepIndicator [] c).items = [] ∧
    (StepIndicator [] c).baselineClass = baselineDivClass ∧
    (StepIndicator [] c).rootClass = "relative" :=
  ⟨rfl, rfl, rfl, rfl⟩

/-- Claim C10: for every index and every state, a label element
holding exactly `steps[i]` is present beneath the marker, and its
visibility class is the fixed string of source line 34, never omitted
from the tree. -/
theorem label_always_present (steps : List String) (c : Int) (i : Nat)
    (h : i < (StepIndicator steps c).items.length) (hs : i < steps.length) :
    ((StepIndicator steps c).items.get ⟨i, h⟩).labelText =
      steps.get ⟨i, hs⟩ ∧
    ((StepIndicator steps c).items.get ⟨i, h⟩).labelClass =
      labelSpanClass := by
  rw [stepIndicator_items_get steps c i h hs]
  exact ⟨rfl, rfl⟩

/-- Witness for C10 at a concrete input with an out-of-range
`currentStep` (all markers Pending): the label is still present. -/
theorem label_always_present_witness :
    ((StepIndicator ["A", "B"] (-3)).items.get ⟨1, by decide⟩).labelText =
      (["A", "B"].get ⟨1, by decide⟩ : String) ∧
    ((StepIndicator ["A", "B"] (-3)).items.get ⟨1, by decide⟩).labelClass =
      labelSpanClass :=
  label_always_present ["A", "B"] (-3) 1 (by decide) (by decide)

end Registro
